import Mathlib

/-!
Verification of the image-converter backend, embedded from
src/src-tauri/src/main.rs.

The Rust program converts raster images between PNG, JPEG and WebP,
compositing translucent pixels over a background color when encoding to
JPEG, and runs either a single-file conversion or a batch pipeline that
emits progress events.  The definitions below are a shallow embedding of
that code:

* pixel buffers are lists of 8-bit RGBA (or RGB) channel quadruples
  (triples), each channel a natural number below 256;
* `f32` arithmetic (the compositing loop and the batch progress
  percentage) is modelled exactly: a nonnegative `f32` value is
  represented by its rational value and every operation is the exact
  rational operation followed by correct rounding to a 24-bit mantissa,
  round-to-nearest ties-to-even.  All quantities that arise stay far
  inside the normal range of `f32`, so overflow and subnormals need no
  model;
* the two encoder sinks (`image::write_to`, `webp::Encoder::encode`)
  are treated as opaque constructors recording exactly which pixel
  buffer and parameters were handed to them;
* filesystem paths are lists of normal components; the decoded image
  and the desktop directory are oracle parameters, since `image::open`,
  `image::load` and `dirs::desktop_dir` read the outside world;
* errors are the exact `String` messages the Rust code produces
  (formatted message parts supplied by oracles are carried verbatim);
  an out-of-bounds or non-boundary `&str` slice is modelled as a
  `panic` outcome.
-/

deriving instance DecidableEq for Except

namespace ImageConverter

/-! ## Exact model of `f32` arithmetic

Rust evaluates the compositing expression and the progress percentage in
IEEE-754 single precision.  `rnd` is correct rounding of a rational to
the nearest `f32` (24-bit mantissa, ties to even), valid on the normal
range, which contains every value this program produces. -/

/-- Round a rational to the nearest integer, ties to even. -/
def rne (x : ℚ) : ℤ :=
  if x - ⌊x⌋ < 1/2 then ⌊x⌋
  else if 1/2 < x - ⌊x⌋ then ⌊x⌋ + 1
  else if ⌊x⌋ % 2 = 0 then ⌊x⌋ else ⌊x⌋ + 1

/-- Integer power of two as a rational, kept executable on `ℕ` so that
concrete values evaluate fast. -/
def pow2z (e : ℤ) : ℚ :=
  if 0 ≤ e then ((2 ^ e.toNat : ℕ) : ℚ) else 1 / ((2 ^ (-e).toNat : ℕ) : ℚ)

/-- Correctly round a positive rational to the `f32` grid: scale into
the binade `[2^23, 2^24)`, round to the nearest (even) integer mantissa
and scale back. -/
def rndPos (q : ℚ) : ℚ :=
  (rne (q * pow2z (23 - Int.log 2 q)) : ℚ) * pow2z (Int.log 2 q - 23)

/-- Round a rational to the nearest `f32` value. -/
def rnd (q : ℚ) : ℚ :=
  if q < 0 then -rndPos (-q) else if q = 0 then 0 else rndPos q

/-- One `f32` division. -/
def fdiv (a b : ℚ) : ℚ := rnd (a / b)

/-- One `f32` multiplication. -/
def fmul (a b : ℚ) : ℚ := rnd (a * b)

/-- One `f32` addition. -/
def fadd (a b : ℚ) : ℚ := rnd (a + b)

/-- One `f32` subtraction. -/
def fsub (a b : ℚ) : ℚ := rnd (a - b)

/-- The Rust cast `as u8` from `f32`: truncate toward zero and saturate
to `0..=255` (for nonpositive values `Int.toNat` already yields 0,
matching saturation). -/
def asU8 (x : ℚ) : ℕ := min 255 (Int.toNat ⌊x⌋)

/-- The Rust cast `as u32` from `f32`: truncate toward zero and
saturate. -/
def asU32 (x : ℚ) : ℕ := min 4294967295 (Int.toNat ⌊x⌋)

/-! ## Pixel buffers and the compositing loop -/

/-- One 8-bit RGBA pixel, as produced by `DynamicImage::to_rgba8`.
Channels are natural numbers; all pixels produced by the decoder have
channels below 256. -/
structure Rgba where
  r : ℕ
  g : ℕ
  b : ℕ
  a : ℕ

deriving DecidableEq

/-- One 8-bit RGB pixel, as stored in an `image::RgbImage`. -/
structure Rgb where
  r : ℕ
  g : ℕ
  b : ℕ

deriving DecidableEq

/-- The `image` crate conversion from `Rgba<u8>` to `Rgb<u8>`
(`DynamicImage::to_rgb8` on an RGBA image): the alpha channel is
dropped, the color channels are copied unchanged. -/
def dropAlpha (p : Rgba) : Rgb := ⟨p.r, p.g, p.b⟩

/-- One channel of the per-pixel compositing statement of
`process_and_save_image` (main.rs lines 269-278 and 296-308):

`bg_pixel[c] = ((1.0 - alpha) * bg_pixel[c] as f32 + alpha * pixel[c] as f32) as u8`

with `alpha = pixel[3] as f32 / 255.0`.  The `u8`-to-`f32` casts are
exact (all channel values are below `2^24`), every arithmetic operation
rounds to `f32`, and the final cast truncates toward zero. -/
def compCh (alpha bg src : ℕ) : ℕ :=
  asU8 (fadd (fmul (fsub 1 (fdiv (alpha : ℚ) 255)) (bg : ℚ))
             (fmul (fdiv (alpha : ℚ) 255) (src : ℚ)))

/-- Compositing one RGBA pixel over the solid background color `bgc`
(the background image is filled with `bgc` before the loop, so
`bg_pixel` initially holds `bgc` in every channel -- see the loop
filling `background` with `image::Rgb(color)`). -/
def compositePix (bgc : Rgb) (p : Rgba) : Rgb :=
  ⟨compCh p.a bgc.r p.r, compCh p.a bgc.g p.g, compCh p.a bgc.b p.b⟩

/-- The default background used in batch mode: opaque white. -/
def whiteBg : Rgb := ⟨255, 255, 255⟩

/-! ## The batch pipeline `convert_all_images` -/

/-- The progress payload emitted on the `conversion-progress` channel
(struct `ConversionPayload`, main.rs lines 29-34).  The `message`
string, a `format!` of the file name and per-file outcome, plays no
role in any claim and is omitted from the embedding. -/
structure ConversionPayload where
  status : String
  progress : ℕ

deriving DecidableEq

/-- The per-file progress percentage of `convert_all_images`
(main.rs line 107):
`((i + 1) as f32 / total_files as f32 * 100.0) as u32`.
Both integer-to-`f32` casts round, the division and the product round,
and the final cast truncates toward zero. -/
def batchProgress (i total_files : ℕ) : ℕ :=
  asU32 (fmul (fdiv (rnd ((i : ℚ) + 1)) (rnd (total_files : ℚ))) 100)

/-- The event emitted right after one file's conversion: `success` when
the per-file conversion returned `Ok`, `error` when it returned `Err`
(main.rs lines 133-156).  Both reuse the `progress` value computed for
the file. -/
def resultEvent (result : Except String (List String)) (progress : ℕ) : ConversionPayload :=
  match result with
  | .ok _ => ⟨"success", progress⟩
  | .error _ => ⟨"error", progress⟩

/-- The worker-thread loop of `convert_all_images` (main.rs lines
104-169): iterate the files in input order with their index, emit
`processing` with the file's progress percentage, run the per-file
conversion (abstracted as the oracle `convert`, which supplies the
`Result` of `convert_image_from_path` for each path), emit the result
event, and after the last file emit exactly one `complete` event with
progress 100.  The returned list is the emitted event sequence in
emission order. -/
def convert_all_images_loop (convert : String → Except String (List String))
    (total_files : ℕ) : ℕ → List String → List ConversionPayload
  | _, [] => [⟨"complete", 100⟩]
  | i, file :: rest =>
    ⟨"processing", batchProgress i total_files⟩ ::
      resultEvent (convert file) (batchProgress i total_files) ::
        convert_all_images_loop convert total_files (i + 1) rest

/-- Events emitted by `convert_all_images` for a job with the given
file list; the dispatch returns immediately and the worker thread emits
this sequence. -/
def convert_all_images (files : List String)
    (convert : String → Except String (List String)) : List ConversionPayload :=
  convert_all_images_loop convert files.length 0 files

/-! ## The background-color hex parser

Both conversion commands parse the optional `bg_color` string the same
way (main.rs lines 181-195 and 214-228): reject byte lengths other than
6 and 7, strip every leading `#` with `trim_start_matches`, then parse
the byte slices `[0..2]`, `[2..4]`, `[4..6]` of the stripped string
with `u8::from_str_radix(_, 16)`.  Strings are modelled as lists of
characters; `str::len` is the UTF-8 byte length; a byte-range slice
panics when an index is out of range or not on a character boundary,
modelled by the `panic` outcome. -/

inductive PResult (α : Type) where
  | ok (val : α)
  | err (msg : String)
  | panic

deriving DecidableEq

/-- UTF-8 encoded size of one character, in bytes. -/
def utf8Size (c : Char) : ℕ :=
  if c.toNat < 128 then 1
  else if c.toNat < 2048 then 2
  else if c.toNat < 65536 then 3
  else 4

/-- `str::len`: the UTF-8 byte length. -/
def byteLen (s : List Char) : ℕ := (s.map utf8Size).sum

/-- Drop `n` leading bytes; `none` when `n` is not a character boundary
or exceeds the length, in which case a slice starting there panics. -/
def dropBytes : List Char → ℕ → Option (List Char)
  | s, 0 => some s
  | [], _ + 1 => none
  | c :: s, n + 1 =>
    if utf8Size c ≤ n + 1 then dropBytes s (n + 1 - utf8Size c) else none

/-- Take the first `n` bytes; `none` when `n` is not a character
boundary of the string, in which case a slice ending there panics. -/
def takeBytes : List Char → ℕ → Option (List Char)
  | _, 0 => some []
  | [], _ + 1 => none
  | c :: s, n + 1 =>
    if utf8Size c ≤ n + 1 then (takeBytes s (n + 1 - utf8Size c)).map (fun l => c :: l)
    else none

/-- The byte-range slice `&s[i..j]` for `i ≤ j`; `none` models the
panic on an out-of-range or non-boundary index. -/
def sliceBytes (s : List Char) (i j : ℕ) : Option (List Char) :=
  (dropBytes s i).bind (fun r => takeBytes r (j - i))

/-- Value of one hexadecimal digit: `0-9` (code points 48-57),
`a-f` (97-102), `A-F` (65-70). -/
def hexDigit? (c : Char) : Option ℕ :=
  if 48 ≤ c.toNat ∧ c.toNat ≤ 57 then some (c.toNat - 48)
  else if 97 ≤ c.toNat ∧ c.toNat ≤ 102 then some (c.toNat - 87)
  else if 65 ≤ c.toNat ∧ c.toNat ≤ 70 then some (c.toNat - 55)
  else none

/-- Accumulate hex digits left to right; any non-digit is an error. -/
def hexDigits : List Char → ℕ → Option ℕ
  | [], acc => some acc
  | c :: s, acc =>
    match hexDigit? c with
    | none => none
    | some v => hexDigits s (16 * acc + v)

/-- `u8::from_str_radix(s, 16)`: an optional single leading `+` (core
accepts it; a `-`, or a sign with nothing after it, is an invalid digit
for an unsigned target), then one or more hex digits.  `none` models
`Err`.  Overflow cannot occur for the two-byte slices this program
parses and is not modelled. -/
def fromStrRadix16 (s : List Char) : Option ℕ :=
  match s with
  | [] => none
  | c :: rest =>
    if c = '+' then (if rest = [] then none else hexDigits rest 0)
    else if c = '-' then none
    else hexDigits s 0

/-- The shared `bg_color` hex parsing block of `convert_image` and
`convert_image_from_path`. -/
def parse_hex_color (hex : List Char) : PResult (ℕ × ℕ × ℕ) :=
  if byteLen hex ≠ 6 ∧ byteLen hex ≠ 7 then .err "Invalid hex color format"
  else
    let hex_clean := hex.dropWhile (fun c => c = '#')
    match sliceBytes hex_clean 0 2 with
    | none => .panic
    | some p1 =>
      match fromStrRadix16 p1 with
      | none => .err "Invalid hex color"
      | some r =>
        match sliceBytes hex_clean 2 4 with
        | none => .panic
        | some p2 =>
          match fromStrRadix16 p2 with
          | none => .err "Invalid hex color"
          | some g =>
            match sliceBytes hex_clean 4 6 with
            | none => .panic
            | some p3 =>
              match fromStrRadix16 p3 with
              | none => .err "Invalid hex color"
              | some b => .ok (r, g, b)

/-- The `rgb_color` value both commands compute before decoding:
`None` when no background was requested, otherwise the parsed RGB
triple. -/
def parseBg (bg_color : Option (List Char)) : PResult (Option Rgb) :=
  match bg_color with
  | none => .ok none
  | some hex =>
    match parse_hex_color hex with
    | .ok (r, g, b) => .ok (some ⟨r, g, b⟩)
    | .err m => .err m
    | .panic => .panic

/-! ## Encoding and output-path resolution (`process_and_save_image`) -/

/-- The byte stream produced by an encoder, recorded as the pixel
buffer and parameters handed to the (opaque, injective) encoder:
JPEG from an RGB buffer, PNG of the image as-is, WebP from the RGBA
buffer at the given quality. -/
inductive Encoded where
  | jpeg (pixels : List Rgb)
  | png (img : List Rgba)
  | webp (pixels : List Rgba) (quality : ℚ)

deriving DecidableEq

/-- The format dispatch of `process_and_save_image` (main.rs lines
257-344), producing the output extension and the encoded data.  The
image is modelled by its RGBA pixel sequence: on it `to_rgba8` is the
identity and `to_rgb8` drops the alpha channel per pixel.  For
`jpg`/`jpeg`: if any pixel has alpha below 255, composite over the
parsed color if present, else over white in batch mode, else fail; if
no pixel is transparent, encode the alpha-dropped buffer directly.
`png` encodes the image as-is, `webp` always encodes the RGBA buffer at
quality 75.0, and any other tag is an error. -/
def encodeImage (dyn_img : List Rgba) (format : String) (rgb_color : Option Rgb)
    (is_batch : Bool) : Except String (String × Encoded) :=
  if format = "jpg" ∨ format = "jpeg" then
    if dyn_img.any (fun p => p.a < 255) then
      match rgb_color with
      | some color => .ok ("jpg", .jpeg (dyn_img.map (compositePix color)))
      | none =>
        if is_batch then .ok ("jpg", .jpeg (dyn_img.map (compositePix whiteBg)))
        else .error "Image has transparency. Please provide a background color."
    else .ok ("jpg", .jpeg (dyn_img.map dropAlpha))
  else if format = "png" then .ok ("png", .png dyn_img)
  else if format = "webp" then .ok ("webp", .webp dyn_img 75)
  else .error "Unsupported output format"

/-- Everything before the first `.` of the file name:
`filename.split('.').next()` in the Rust source.  (`split` always
yields at least one element, so the `unwrap_or("converted")` fallback
is dead.) -/
def stem (filename : String) : String :=
  String.mk (filename.toList.takeWhile (fun c => c ≠ '.'))

/-- A filesystem side effect of a successful conversion. -/
inductive FsOp where
  | createDirAll (dir : List String)
  | writeFile (path : List String) (data : Encoded)

deriving DecidableEq

/-- `process_and_save_image` (main.rs lines 249-361).  Paths are lists
of normal components; the returned path is the resolved output path.
The filesystem operations (`create_dir_all`, `File::create` with
`write_all`) are recorded as a trace in program order; they happen only
after the encode succeeded.  Filesystem failures (`IOError`) are not
modelled -- every claim below concerns runs where the filesystem
operations succeed. -/
def process_and_save_image (dyn_img : List Rgba) (filename : String) (format : String)
    (rgb_color : Option Rgb) (output_dir : List String) (is_batch : Bool) :
    Except String (List String) × List FsOp :=
  match encodeImage dyn_img format rgb_color is_batch with
  | .error e => (.error e, [])
  | .ok (ext, encoded_data) =>
    let base_name := stem filename
    let output_filename :=
      if is_batch then base_name ++ "." ++ ext
      else base_name ++ "_converted." ++ ext
    let output_path := output_dir ++ [output_filename]
    (.ok output_path, [.createDirAll output_dir, .writeFile output_path encoded_data])

/-! ## The two conversion commands

`image::guess_format`/`image::load`/`image::open` read bytes or the
filesystem, so the decoded image is an oracle parameter `decoded`: the
`Result` those calls produce, with the formatted error message carried
verbatim.  `dirs::desktop_dir()` is the oracle `desktop_dir`. -/

/-- `convert_image` (main.rs lines 174-205): parse the background
color, decode the supplied bytes, resolve the desktop directory, then
process into `<desktop>/ImageConverter` in single-file mode
(`is_batch = false`). -/
def convert_image (decoded : Except String (List Rgba)) (filename : String)
    (format : String) (bg_color : Option (List Char))
    (desktop_dir : Option (List String)) : PResult (List String) × List FsOp :=
  match parseBg bg_color with
  | .panic => (.panic, [])
  | .err e => (.err e, [])
  | .ok rgb_color =>
    match decoded with
    | .error e => (.err e, [])
    | .ok dyn_img =>
      match desktop_dir with
      | none => (.err "Failed to find Desktop directory", [])
      | some desktop =>
        let output_dir := desktop ++ ["ImageConverter"]
        match process_and_save_image dyn_img filename format rgb_color output_dir false with
        | (.ok p, ops) => (.ok p, ops)
        | (.error e, ops) => (.err e, ops)

/-- `convert_image_from_path` (main.rs lines 207-247): parse the
background color, take the path's file name, decode the file, resolve
the output directory `<parent>/<parent-name>_converted`, then process
in batch mode (`is_batch = true`). -/
def convert_image_from_path (file_path : List String)
    (decoded : Except String (List Rgba)) (format : String)
    (bg_color : Option (List Char)) : PResult (List String) × List FsOp :=
  match parseBg bg_color with
  | .panic => (.panic, [])
  | .err e => (.err e, [])
  | .ok rgb_color =>
    match file_path.getLast? with
    | none => (.err "Invalid file path", [])
    | some filename =>
      match decoded with
      | .error e => (.err e, [])
      | .ok dyn_img =>
        let source_dir := file_path.dropLast
        match source_dir.getLast? with
        | none => (.err "Could not get source folder name", [])
        | some source_folder_name =>
          let output_dir := source_dir ++ [source_folder_name ++ "_converted"]
          match process_and_save_image dyn_img filename format rgb_color output_dir true with
          | (.ok p, ops) => (.ok p, ops)
          | (.error e, ops) => (.err e, ops)

/-! ## Theorems -/

theorem pow2z_eq (e : ℤ) : pow2z e = (2 : ℚ) ^ e := by
  unfold pow2z
  split
  · rename_i h
    rw [Nat.cast_pow, Nat.cast_ofNat, ← zpow_natCast, Int.toNat_of_nonneg h]
  · rename_i h
    rw [Nat.cast_pow, Nat.cast_ofNat, ← zpow_natCast, Int.toNat_of_nonneg (by omega),
      one_div, ← zpow_neg, neg_neg]

theorem rne_abs (x : ℚ) : |(rne x : ℚ) - x| ≤ 1/2 := by
  have h1 := Int.floor_le x
  have h2 := Int.lt_floor_add_one x
  unfold rne
  split
  · rename_i h
    rw [abs_le]; constructor <;> push_cast <;> linarith
  · rename_i h
    split
    · rename_i h'
      rw [abs_le]; constructor <;> push_cast <;> linarith
    · rename_i h'
      have hx : x - ⌊x⌋ = 1/2 := by linarith
      split <;> (rw [abs_le]; constructor <;> push_cast <;> linarith)

/-- Rounding an integer (as a rational) is exact. -/
theorem rne_intCast (n : ℤ) : rne (n : ℚ) = n := by
  unfold rne
  rw [Int.floor_intCast]
  norm_num

/-- Relative error of one correct rounding: half an ulp, coarsely
bounded by `q / 2 ^ 24` for nonnegative `q`. -/
theorem rnd_err {q : ℚ} (hq : 0 ≤ q) : |rnd q - q| ≤ q / 16777216 := by
  rcases eq_or_lt_of_le hq with h | h
  · simp [rnd, ← h]
  · have hne : (2 : ℚ) ≠ 0 := by norm_num
    have hq0 : rnd q = rndPos q := by
      unfold rnd
      rw [if_neg (by linarith), if_neg (by linarith)]
    have hlog : (2 : ℚ) ^ Int.log 2 q ≤ q := Int.zpow_log_le_self (by norm_num) h
    set e := Int.log 2 q with he
    set s := q * (2 : ℚ) ^ (23 - e) with hs
    have hqs : q = s * (2 : ℚ) ^ (e - 23) := by
      rw [hs, mul_assoc, ← zpow_add₀ hne]
      norm_num
    have h1 : |(rne s : ℚ) - s| ≤ 1/2 := rne_abs s
    have h2 : rndPos q - q = ((rne s : ℚ) - s) * (2 : ℚ) ^ (e - 23) := by
      unfold rndPos
      rw [pow2z_eq, pow2z_eq, ← he, ← hs]
      nth_rewrite 1 [hqs]
      ring
    have hppos : (0 : ℚ) < (2 : ℚ) ^ (e - 23) := by positivity
    have h3 : |rnd q - q| ≤ (1/2) * (2 : ℚ) ^ (e - 23) := by
      rw [hq0, h2, abs_mul, abs_of_pos hppos]
      exact mul_le_mul_of_nonneg_right h1 hppos.le
    have h4 : (2 : ℚ) ^ (e - 23) = (2 : ℚ) ^ e * (1 / 8388608) := by
      rw [zpow_sub₀ hne, show ((2 : ℚ) ^ (23 : ℤ)) = 8388608 from by norm_num]
      ring
    have h5 : (1/2) * (2 : ℚ) ^ (e - 23) ≤ q / 16777216 := by
      rw [h4]
      have h6 : (2 : ℚ) ^ e * (1 / 8388608) * (1/2) ≤ q * (1 / 8388608) * (1/2) := by
        have h7 := mul_le_mul_of_nonneg_right hlog
          (by norm_num : (0:ℚ) ≤ (1 / 8388608) * (1/2))
        linarith [h7]
      linarith [h6]
    linarith

/-- Values already on the grid are fixed points: natural numbers below
`2 ^ 24` round to themselves. -/
theorem rnd_nat (n : ℕ) (h : n < 16777216) : rnd (n : ℚ) = n := by
  rcases Nat.eq_zero_or_pos n with h0 | h0
  · subst h0; simp [rnd]
  · have hq : (0 : ℚ) < (n : ℚ) := by exact_mod_cast h0
    have hq0 : rnd (n : ℚ) = rndPos (n : ℚ) := by
      unfold rnd
      rw [if_neg (by linarith), if_neg (by linarith)]
    have hlogn : Int.log 2 ((n : ℚ)) = (Nat.log 2 n : ℤ) := Int.log_natCast 2 n
    have hL : Nat.log 2 n ≤ 23 := by
      have hpow : n < 2 ^ 24 := lt_of_lt_of_eq h (by norm_num)
      exact Nat.le_of_lt_succ (Nat.log_lt_of_lt_pow h0.ne' hpow)
    set L := Nat.log 2 n with hLdef
    have he1 : (23 : ℤ) - (L : ℤ) = ((23 - L : ℕ) : ℤ) := by omega
    have hint : (n : ℚ) * (2 : ℚ) ^ ((23 : ℤ) - (L : ℤ)) = ((n * 2 ^ (23 - L) : ℕ) : ℚ) := by
      rw [he1, zpow_natCast]
      push_cast
      ring
    rw [hq0]
    unfold rndPos
    rw [pow2z_eq, pow2z_eq, hlogn, hint]
    have hcast : ((n * 2 ^ (23 - L) : ℕ) : ℚ) = (((n * 2 ^ (23 - L) : ℕ) : ℤ) : ℚ) := by
      push_cast; ring
    rw [hcast, rne_intCast]
    push_cast
    rw [mul_assoc, ← zpow_natCast (2 : ℚ) (23 - L), ← zpow_add₀ (by norm_num : (2:ℚ) ≠ 0)]
    rw [← he1]
    rw [show (23 : ℤ) - (L : ℤ) + ((L : ℤ) - 23) = 0 from by ring, zpow_zero, mul_one]

theorem rnd_zero : rnd 0 = 0 := by simp [rnd]

theorem rnd_one : rnd 1 = 1 := by
  have h1 := rnd_nat 1 (by norm_num)
  simpa using h1

/-- Evaluation helper: when the scaled mantissa has fractional part
below one half, `rnd` rounds down.  All hypotheses are rational literal
comparisons dischargeable by `norm_num`. -/
theorem rnd_eval_down (q : ℚ) (e : ℤ) (f : ℤ) (hq : 0 < q)
    (h1 : (2:ℚ) ^ e ≤ q) (h2 : q < (2:ℚ) ^ (e + 1))
    (hf1 : (f : ℚ) ≤ q * (2:ℚ) ^ (23 - e))
    (hf2 : q * (2:ℚ) ^ (23 - e) - f < 1/2) :
    rnd q = f * (2:ℚ) ^ (e - 23) := by
  have he : Int.log 2 q = e := by
    have hle : e ≤ Int.log 2 q := (Int.zpow_le_iff_le_log (by norm_num) hq).mp h1
    have hlt : Int.log 2 q < e + 1 := (Int.lt_zpow_iff_log_lt (by norm_num) hq).mp h2
    omega
  have hfl : ⌊q * (2:ℚ) ^ (23 - e)⌋ = f := by
    rw [Int.floor_eq_iff]
    constructor
    · exact hf1
    · push_cast; linarith
  have hrne : rne (q * (2:ℚ) ^ (23 - e)) = f := by
    unfold rne
    rw [hfl, if_pos (by push_cast; linarith)]
  unfold rnd
  rw [if_neg (by linarith), if_neg (by linarith)]
  unfold rndPos
  rw [pow2z_eq, pow2z_eq, he, hrne]

/-- Evaluation helper: when the scaled mantissa has fractional part
above one half, `rnd` rounds up. -/
theorem rnd_eval_up (q : ℚ) (e : ℤ) (f : ℤ) (hq : 0 < q)
    (h1 : (2:ℚ) ^ e ≤ q) (h2 : q < (2:ℚ) ^ (e + 1))
    (hf1 : (f : ℚ) ≤ q * (2:ℚ) ^ (23 - e))
    (hf2 : q * (2:ℚ) ^ (23 - e) < (f : ℚ) + 1)
    (hhalf : 1/2 < q * (2:ℚ) ^ (23 - e) - f) :
    rnd q = (f + 1) * (2:ℚ) ^ (e - 23) := by
  have he : Int.log 2 q = e := by
    have hle : e ≤ Int.log 2 q := (Int.zpow_le_iff_le_log (by norm_num) hq).mp h1
    have hlt : Int.log 2 q < e + 1 := (Int.lt_zpow_iff_log_lt (by norm_num) hq).mp h2
    omega
  have hfl : ⌊q * (2:ℚ) ^ (23 - e)⌋ = f := by
    rw [Int.floor_eq_iff]
    constructor
    · exact hf1
    · push_cast; linarith
  have hrne : rne (q * (2:ℚ) ^ (23 - e)) = f + 1 := by
    unfold rne
    rw [hfl, if_neg (by push_cast; linarith), if_pos (by push_cast; linarith)]
  unfold rnd
  rw [if_neg (by linarith), if_neg (by linarith)]
  unfold rndPos
  rw [pow2z_eq, pow2z_eq, he, hrne]
  push_cast
  ring

/-! Concrete `f32` values needed below, each obtained by one correct
rounding step. -/

theorem fdiv_128_255 : fdiv (128 : ℚ) 255 = 8421505/16777216 := by
  unfold fdiv
  have h := rnd_eval_up (128/255) (-1) 8421504 (by norm_num) (by norm_num) (by norm_num)
    (by norm_num) (by norm_num) (by norm_num)
  rw [h]
  norm_num

theorem fsub_one_alpha128 : fsub 1 (8421505/16777216 : ℚ) = 8355711/16777216 := by
  unfold fsub
  rw [show (1 : ℚ) - 8421505/16777216 = 8355711/16777216 from by norm_num]
  have h := rnd_eval_down (8355711/16777216) (-2) 16711422 (by norm_num) (by norm_num)
    (by norm_num) (by norm_num) (by norm_num)
  rw [h]
  norm_num

theorem asU8_eval (x : ℚ) (n : ℕ) (hn : n ≤ 255) (h1 : (n : ℚ) ≤ x) (h2 : x < n + 1) :
    asU8 x = n := by
  unfold asU8
  have hfl : ⌊x⌋ = (n : ℤ) := by
    rw [Int.floor_eq_iff]
    constructor
    · exact_mod_cast h1
    · push_cast
      exact h2
  rw [hfl]
  simp
  omega

theorem asU32_eval (x : ℚ) (n : ℕ) (hn : n ≤ 4294967295) (h1 : (n : ℚ) ≤ x)
    (h2 : x < n + 1) : asU32 x = n := by
  unfold asU32
  have hfl : ⌊x⌋ = (n : ℤ) := by
    rw [Int.floor_eq_iff]
    constructor
    · exact_mod_cast h1
    · push_cast
      exact h2
  rw [hfl]
  simp
  omega

/-! ## Per-channel compositing facts

The claims about the blending formula, proved against the exact `f32`
evaluation. -/

/-- A fully transparent pixel yields the background channel exactly:
`alpha = 0` makes every rounding step exact. -/
theorem compCh_zero (bg src : ℕ) (hbg : bg ≤ 255) : compCh 0 bg src = bg := by
  unfold compCh
  have h1 : fdiv ((0 : ℕ) : ℚ) 255 = 0 := by
    unfold fdiv
    norm_num [rnd_zero]
  have h2 : fsub 1 0 = 1 := by
    unfold fsub
    norm_num [rnd_one]
  have h3 : fmul 1 ((bg : ℕ) : ℚ) = (bg : ℚ) := by
    unfold fmul
    rw [one_mul]
    exact rnd_nat bg (by omega)
  have h4 : fmul 0 ((src : ℕ) : ℚ) = 0 := by
    unfold fmul
    rw [zero_mul]
    exact rnd_zero
  have h5 : fadd ((bg : ℕ) : ℚ) 0 = (bg : ℚ) := by
    unfold fadd
    rw [add_zero]
    exact rnd_nat bg (by omega)
  rw [h1, h2, h3, h4, h5]
  exact asU8_eval _ bg hbg (by norm_num) (by norm_num)

/-- A fully opaque pixel yields the source channel exactly. -/
theorem compCh_full (bg src : ℕ) (hsrc : src ≤ 255) : compCh 255 bg src = src := by
  unfold compCh
  have h1 : fdiv ((255 : ℕ) : ℚ) 255 = 1 := by
    unfold fdiv
    norm_num [rnd_one]
  have h2 : fsub 1 1 = 0 := by
    unfold fsub
    norm_num [rnd_zero]
  have h3 : fmul 0 ((bg : ℕ) : ℚ) = 0 := by
    unfold fmul
    rw [zero_mul]
    exact rnd_zero
  have h4 : fmul 1 ((src : ℕ) : ℚ) = (src : ℚ) := by
    unfold fmul
    rw [one_mul]
    exact rnd_nat src (by omega)
  have h5 : fadd 0 ((src : ℕ) : ℚ) = (src : ℚ) := by
    unfold fadd
    rw [zero_add]
    exact rnd_nat src (by omega)
  rw [h1, h2, h3, h4, h5]
  exact asU8_eval _ src hsrc (by norm_num) (by norm_num)

/-- The half-transparent blend stays within 1.5 of the exact midpoint of
background and source: accumulated `f32` rounding error plus the final
truncation toward zero. -/
theorem compCh_mid (bg src : ℕ) (hbg : bg ≤ 255) (hsrc : src ≤ 255) :
    |2 * (compCh 128 bg src : ℤ) - ((bg : ℤ) + (src : ℤ))| ≤ 3 := by
  have hc : ((128 : ℕ) : ℚ) = (128 : ℚ) := by norm_num
  have hB0 : (0 : ℚ) ≤ (bg : ℚ) := Nat.cast_nonneg bg
  have hB1 : ((bg : ℕ) : ℚ) ≤ 255 := by exact_mod_cast hbg
  have hS0 : (0 : ℚ) ≤ (src : ℚ) := Nat.cast_nonneg src
  have hS1 : ((src : ℕ) : ℚ) ≤ 255 := by exact_mod_cast hsrc
  have hXpos : (0 : ℚ) ≤ 8355711/16777216 * (bg : ℚ) := by positivity
  have hYpos : (0 : ℚ) ≤ 8421505/16777216 * (src : ℚ) := by positivity
  have hXub : 8355711/16777216 * (bg : ℚ) ≤ 8355711/16777216 * 255 :=
    mul_le_mul_of_nonneg_left hB1 (by norm_num)
  have hYub : 8421505/16777216 * (src : ℚ) ≤ 8421505/16777216 * 255 :=
    mul_le_mul_of_nonneg_left hS1 (by norm_num)
  have ht1e := abs_le.mp (rnd_err hXpos)
  have ht2e := abs_le.mp (rnd_err hYpos)
  have hcompCh : compCh 128 bg src =
      asU8 (fadd (fmul (8355711/16777216) (bg : ℚ)) (fmul (8421505/16777216) (src : ℚ))) := by
    unfold compCh
    rw [hc, fdiv_128_255, fsub_one_alpha128]
  set t1 := fmul (8355711/16777216) ((bg : ℕ) : ℚ) with ht1def
  set t2 := fmul (8421505/16777216) ((src : ℕ) : ℚ) with ht2def
  have ht1e' : |t1 - 8355711/16777216 * (bg : ℚ)| ≤ (8355711/16777216 * (bg : ℚ))/16777216 := by
    rw [ht1def]
    unfold fmul
    exact rnd_err hXpos
  have ht2e' : |t2 - 8421505/16777216 * (src : ℚ)| ≤ (8421505/16777216 * (src : ℚ))/16777216 := by
    rw [ht2def]
    unfold fmul
    exact rnd_err hYpos
  obtain ⟨hl1, hu1⟩ := abs_le.mp ht1e'
  obtain ⟨hl2, hu2⟩ := abs_le.mp ht2e'
  have hsum0 : (0 : ℚ) ≤ t1 + t2 := by linarith
  have hse' : |fadd t1 t2 - (t1 + t2)| ≤ (t1 + t2)/16777216 := by
    unfold fadd
    exact rnd_err hsum0
  obtain ⟨hl3, hu3⟩ := abs_le.mp hse'
  set s := fadd t1 t2 with hsdef
  have hfl_le : ((⌊s⌋ : ℤ) : ℚ) ≤ s := Int.floor_le s
  have hfl_gt : s < (⌊s⌋ : ℚ) + 1 := Int.lt_floor_add_one s
  have hs256 : s < 256 := by linarith
  have hfl255 : ⌊s⌋ ≤ 255 := by
    have h := Int.floor_lt.mpr (show s < ((256 : ℤ) : ℚ) from by push_cast; linarith)
    omega
  have hval : compCh 128 bg src = Int.toNat ⌊s⌋ := by
    rw [hcompCh]
    unfold asU8
    have hle : Int.toNat ⌊s⌋ ≤ 255 := Int.toNat_le.mpr (by omega)
    omega
  rcases le_or_lt 0 ⌊s⌋ with hpos | hneg
  · have hcast : ((Int.toNat ⌊s⌋ : ℕ) : ℚ) = ((⌊s⌋ : ℤ) : ℚ) := by
      exact_mod_cast Int.toNat_of_nonneg hpos
    have hQlo : (-4 : ℚ) < 2 * ((Int.toNat ⌊s⌋ : ℕ) : ℚ) - ((bg : ℚ) + (src : ℚ)) := by
      rw [hcast]
      linarith
    have hQhi : 2 * ((Int.toNat ⌊s⌋ : ℕ) : ℚ) - ((bg : ℚ) + (src : ℚ)) < 4 := by
      rw [hcast]
      linarith
    have hZlo : (-4 : ℤ) < 2 * ((Int.toNat ⌊s⌋ : ℕ) : ℤ) - ((bg : ℤ) + (src : ℤ)) := by
      exact_mod_cast hQlo
    have hZhi : 2 * ((Int.toNat ⌊s⌋ : ℕ) : ℤ) - ((bg : ℤ) + (src : ℤ)) < 4 := by
      exact_mod_cast hQhi
    rw [hval, abs_le]
    constructor <;> omega
  · have hzero : Int.toNat ⌊s⌋ = 0 := by omega
    have hsneg : s < 0 := by
      have h1 : ((⌊s⌋ : ℤ) : ℚ) + 1 ≤ 0 := by exact_mod_cast Int.add_one_le_iff.mpr hneg
      linarith
    have hBS : (bg : ℚ) + (src : ℚ) < 4 := by linarith
    have hBSZ : (bg : ℤ) + (src : ℤ) < 4 := by exact_mod_cast hBS
    rw [hval, hzero, abs_le]
    constructor <;> omega

/-- Concrete refutation channel: `alpha = 128`, white background,
black source.  The exact real value of the blend is 127, but `f32`
evaluation yields 126.99999237, which truncates to 126 -- 1.5 below the
midpoint 127.5. -/
theorem compCh_128_255_0 : compCh 128 255 0 = 126 := by
  unfold compCh
  have hc : ((128 : ℕ) : ℚ) = (128 : ℚ) := by norm_num
  rw [hc, fdiv_128_255, fsub_one_alpha128]
  have ht1 : fmul (8355711/16777216) ((255 : ℕ) : ℚ) = 16646143/131072 := by
    unfold fmul
    rw [show (8355711/16777216 : ℚ) * ((255 : ℕ) : ℚ) = 2130706305/16777216 from by norm_num]
    have h := rnd_eval_down (2130706305/16777216) 6 16646143 (by norm_num) (by norm_num)
      (by norm_num) (by norm_num) (by norm_num)
    rw [h]
    norm_num
  have ht2 : fmul (8421505/16777216) ((0 : ℕ) : ℚ) = 0 := by
    unfold fmul
    norm_num [rnd_zero]
  rw [ht1, ht2]
  have hs : fadd (16646143/131072) 0 = 16646143/131072 := by
    unfold fadd
    rw [add_zero]
    have h := rnd_eval_down (16646143/131072) 6 16646143 (by norm_num) (by norm_num)
      (by norm_num) (by norm_num) (by norm_num)
    rw [h]
    norm_num
  rw [hs]
  exact asU8_eval _ 126 (by norm_num) (by norm_num) (by norm_num)

/-! Concrete progress percentages for a batch of three files. -/

theorem rnd_two : rnd 2 = 2 := by
  have h := rnd_nat 2 (by norm_num)
  push_cast at h
  exact h

theorem rnd_three : rnd 3 = 3 := by
  have h := rnd_nat 3 (by norm_num)
  push_cast at h
  exact h

theorem rnd_hundred : rnd 100 = 100 := by
  have h := rnd_nat 100 (by norm_num)
  push_cast at h
  exact h

theorem batchProgress_0_3 : batchProgress 0 3 = 33 := by
  unfold batchProgress
  rw [show ((0 : ℕ) : ℚ) + 1 = 1 from by norm_num, rnd_one,
    show ((3 : ℕ) : ℚ) = (3 : ℚ) from by norm_num, rnd_three]
  have hd : fdiv 1 3 = 11184811/33554432 := by
    unfold fdiv
    have h := rnd_eval_up (1/3) (-2) 11184810 (by norm_num) (by norm_num) (by norm_num)
      (by norm_num) (by norm_num) (by norm_num)
    rw [show (1 : ℚ)/3 = 1/3 from rfl, h]
    norm_num
  rw [hd]
  have hm : fmul (11184811/33554432) 100 = 8738134/262144 := by
    unfold fmul
    rw [show (11184811/33554432 : ℚ) * 100 = 1118481100/33554432 from by norm_num]
    have h := rnd_eval_up (1118481100/33554432) 5 8738133 (by norm_num) (by norm_num)
      (by norm_num) (by norm_num) (by norm_num) (by norm_num)
    rw [h]
    norm_num
  rw [hm]
  exact asU32_eval _ 33 (by norm_num) (by norm_num) (by norm_num)

theorem batchProgress_1_3 : batchProgress 1 3 = 66 := by
  unfold batchProgress
  rw [show ((1 : ℕ) : ℚ) + 1 = 2 from by norm_num,
    show ((3 : ℕ) : ℚ) = (3 : ℚ) from by norm_num,
    rnd_two, rnd_three]
  have hd : fdiv 2 3 = 11184811/16777216 := by
    unfold fdiv
    have h := rnd_eval_up (2/3) (-1) 11184810 (by norm_num) (by norm_num) (by norm_num)
      (by norm_num) (by norm_num) (by norm_num)
    rw [show (2 : ℚ)/3 = 2/3 from rfl, h]
    norm_num
  rw [hd]
  have hm : fmul (11184811/16777216) 100 = 8738134/131072 := by
    unfold fmul
    rw [show (11184811/16777216 : ℚ) * 100 = 1118481100/16777216 from by norm_num]
    have h := rnd_eval_up (1118481100/16777216) 6 8738133 (by norm_num) (by norm_num)
      (by norm_num) (by norm_num) (by norm_num) (by norm_num)
    rw [h]
    norm_num
  rw [hm]
  exact asU32_eval _ 66 (by norm_num) (by norm_num) (by norm_num)

theorem batchProgress_2_3 : batchProgress 2 3 = 100 := by
  unfold batchProgress
  rw [show ((2 : ℕ) : ℚ) + 1 = 3 from by norm_num,
    show ((3 : ℕ) : ℚ) = (3 : ℚ) from by norm_num,
    rnd_three]
  have hd : fdiv 3 3 = 1 := by
    unfold fdiv
    rw [show (3 : ℚ)/3 = 1 from by norm_num]
    exact rnd_one
  rw [hd]
  have hm : fmul 1 100 = 100 := by
    unfold fmul
    rw [one_mul]
    exact rnd_hundred
  rw [hm]
  exact asU32_eval _ 100 (by norm_num) (by norm_num) (by norm_num)

/-! Structure of the emitted event sequence. -/

theorem convert_loop_length (convert : String → Except String (List String)) (N : ℕ)
    (fs : List String) :
    ∀ i, (convert_all_images_loop convert N i fs).length = 2 * fs.length + 1 := by
  induction fs with
  | nil =>
    intro i
    simp [convert_all_images_loop]
  | cons f rest ih =>
    intro i
    have h := ih (i + 1)
    simp only [convert_all_images_loop, List.length_cons]
    omega

theorem convert_loop_get (convert : String → Except String (List String)) (N : ℕ)
    (fs : List String) :
    ∀ i k file, fs.get? k = some file →
      (convert_all_images_loop convert N i fs).get? (2 * k) =
        some ⟨"processing", batchProgress (i + k) N⟩ ∧
      (convert_all_images_loop convert N i fs).get? (2 * k + 1) =
        some (resultEvent (convert file) (batchProgress (i + k) N)) := by
  induction fs with
  | nil =>
    intro i k file h
    simp at h
  | cons f rest ih =>
    intro i k file h
    cases k with
    | zero =>
      simp only [List.get?_cons_zero, Option.some.injEq] at h
      subst h
      simp [convert_all_images_loop]
    | succ k =>
      simp only [List.get?_cons_succ] at h
      refine ⟨?_, ?_⟩
      · rw [show 2 * (k + 1) = 2 * k + 1 + 1 from by ring]
        simp only [convert_all_images_loop, List.get?_cons_succ]
        have h1 := (ih (i + 1) k file h).1
        rw [show i + 1 + k = i + (k + 1) from by omega] at h1
        exact h1
      · rw [show 2 * (k + 1) + 1 = 2 * k + 1 + 1 + 1 from by ring]
        simp only [convert_all_images_loop, List.get?_cons_succ]
        have h2 := (ih (i + 1) k file h).2
        rw [show i + 1 + k = i + (k + 1) from by omega] at h2
        exact h2

theorem convert_loop_last (convert : String → Except String (List String)) (N : ℕ)
    (fs : List String) :
    ∀ i, (convert_all_images_loop convert N i fs).get? (2 * fs.length) =
      some ⟨"complete", 100⟩ := by
  induction fs with
  | nil =>
    intro i
    simp [convert_all_images_loop]
  | cons f rest ih =>
    intro i
    rw [show 2 * (f :: rest).length = 2 * rest.length + 1 + 1 from by
      simp only [List.length_cons]; ring]
    simp only [convert_all_images_loop, List.get?_cons_succ]
    exact ih (i + 1)

theorem resultEvent_cases (result : Except String (List String)) (p : ℕ) :
    resultEvent result p = ⟨"success", p⟩ ∨ resultEvent result p = ⟨"error", p⟩ := by
  cases result <;> simp [resultEvent]

/-! ## Claim theorems -/

/-- C10: a batch job with an empty file list emits exactly one event,
`complete` with progress 100 -- no `processing`, `success` or `error`
event is emitted and the per-file progress computation is never
instantiated (the loop body is never entered). -/
theorem C10_empty_batch (convert : String → Except String (List String)) :
    convert_all_images [] convert = [⟨"complete", 100⟩] := rfl

/-- C8: every target format tag other than `png`, `jpg`, `jpeg` and
`webp` fails with the unsupported-format error, and `webp` always
encodes the RGBA buffer at fixed quality 75 with compositing skipped,
regardless of transparency, background color and mode. -/
theorem C8_formats :
    (∀ format : String, format ≠ "png" → format ≠ "jpg" → format ≠ "jpeg" →
      format ≠ "webp" →
      ∀ (dyn_img : List Rgba) (rgb_color : Option Rgb) (is_batch : Bool),
        encodeImage dyn_img format rgb_color is_batch =
          .error "Unsupported output format") ∧
    (∀ (dyn_img : List Rgba) (rgb_color : Option Rgb) (is_batch : Bool),
      encodeImage dyn_img "webp" rgb_color is_batch =
        .ok ("webp", .webp dyn_img 75)) := by
  constructor
  · intro format h1 h2 h3 h4 dyn_img rgb_color b
    unfold encodeImage
    rw [if_neg (by push_neg; exact ⟨h2, h3⟩), if_neg h1, if_neg h4]
  · intro dyn_img rgb_color b
    unfold encodeImage
    rw [if_neg (by decide), if_neg (by decide), if_pos rfl]

/-- Witness for C8 at the concrete unsupported tag `gif`. -/
theorem C8_formats_witness :
    encodeImage [⟨7, 8, 9, 255⟩] "gif" none false =
      .error "Unsupported output format" :=
  C8_formats.1 "gif" (by decide) (by decide) (by decide) (by decide)
    [⟨7, 8, 9, 255⟩] none false

/-- C6: on an RGBA buffer whose pixels are all fully opaque, JPEG
conversion skips compositing and hands the encoder exactly the
alpha-dropped buffer, whatever background color was supplied and in
both modes: the background is never applied as a tint. -/
theorem C6_opaque_drops_alpha (dyn_img : List Rgba) (rgb_color : Option Rgb)
    (is_batch : Bool) (h : ∀ p ∈ dyn_img, p.a = 255) :
    encodeImage dyn_img "jpg" rgb_color is_batch =
      .ok ("jpg", .jpeg (dyn_img.map dropAlpha)) ∧
    encodeImage dyn_img "jpeg" rgb_color is_batch =
      .ok ("jpg", .jpeg (dyn_img.map dropAlpha)) := by
  have hany : dyn_img.any (fun p => p.a < 255) = false := by
    rw [List.any_eq_false]
    intro p hp
    simp [h p hp]
  constructor
  · unfold encodeImage
    rw [if_pos (Or.inl rfl), hany]
    simp
  · unfold encodeImage
    rw [if_pos (Or.inr rfl), hany]
    simp

/-- Witness for C6 on a one-pixel opaque buffer with a background
color supplied. -/
theorem C6_witness :
    encodeImage [⟨1, 2, 3, 255⟩] "jpg" (some ⟨9, 9, 9⟩) false =
      .ok ("jpg", .jpeg [⟨1, 2, 3⟩]) := by
  have h := (C6_opaque_drops_alpha [⟨1, 2, 3, 255⟩] (some ⟨9, 9, 9⟩) false
    (by decide)).1
  rw [h]
  rfl

/-- C4: a batch of N files emits exactly 2N+1 events in input order:
for the file at index k one `processing` event at position 2k,
immediately followed at position 2k+1 by exactly one `success` or
`error` event carrying the same progress, and after the last file one
final `complete` event with progress 100 at position 2N.  The shape
holds whatever the per-file outcomes are, so one file's failure never
prevents later files or the final event. -/
theorem C4_event_shape (files : List String)
    (convert : String → Except String (List String)) :
    (convert_all_images files convert).length = 2 * files.length + 1 ∧
    (∀ k file, files.get? k = some file →
      (convert_all_images files convert).get? (2 * k) =
        some ⟨"processing", batchProgress k files.length⟩ ∧
      ((convert_all_images files convert).get? (2 * k + 1) =
          some ⟨"success", batchProgress k files.length⟩ ∨
        (convert_all_images files convert).get? (2 * k + 1) =
          some ⟨"error", batchProgress k files.length⟩)) ∧
    (convert_all_images files convert).get? (2 * files.length) =
      some ⟨"complete", 100⟩ := by
  unfold convert_all_images
  refine ⟨convert_loop_length convert files.length files 0, ?_,
    convert_loop_last convert files.length files 0⟩
  intro k file h
  have hg := convert_loop_get convert files.length files 0 k file h
  rw [show 0 + k = k from by omega] at hg
  refine ⟨hg.1, ?_⟩
  rcases resultEvent_cases (convert file) (batchProgress k files.length) with he | he
  · left
    rw [hg.2, he]
  · right
    rw [hg.2, he]

/-- Witness for C4 on a two-file batch where the second file fails. -/
theorem C4_witness :
    (convert_all_images ["a", "b"] (fun file => Except.error file)).get? (2 * 1) =
      some ⟨"processing", batchProgress 1 2⟩ :=
  ((C4_event_shape ["a", "b"] (fun file => Except.error file)).2.1 1 "b" (by decide)).1

/-- C3 refutation: in a batch of three files the second file's events
carry progress 66, not `round((1+1)/3*100) = 67`: the Rust code
truncates the `f32` percentage with `as u32` instead of rounding. -/
theorem C3_counterexample :
    convert_all_images ["a", "b", "c"] (fun file => .ok [file]) =
      [⟨"processing", 33⟩, ⟨"success", 33⟩, ⟨"processing", 66⟩, ⟨"success", 66⟩,
       ⟨"processing", 100⟩, ⟨"success", 100⟩, ⟨"complete", 100⟩] ∧
    (66 : ℕ) ≠ 67 := by
  constructor
  · simp only [convert_all_images, List.length_cons, List.length_nil,
      convert_all_images_loop, resultEvent]
    rw [show (0 : ℕ) + 1 + 1 + 1 = 3 from rfl]
    rw [batchProgress_0_3, batchProgress_1_3, batchProgress_2_3]
  · decide

/-- C3 amended: the progress attached to both events of the file at
zero-based index k in a batch of N files is the truncated `f32` value
`((k+1) as f32 / N as f32 * 100.0) as u32`; for a batch of three files
the three values are 33, 66 and 100 (not the rounded 33, 67, 100). -/
theorem C3_progress (files : List String)
    (convert : String → Except String (List String)) :
    (∀ k file, files.get? k = some file →
      (convert_all_images files convert).get? (2 * k) =
        some ⟨"processing", batchProgress k files.length⟩ ∧
      (convert_all_images files convert).get? (2 * k + 1) =
        some (resultEvent (convert file) (batchProgress k files.length))) ∧
    batchProgress 0 3 = 33 ∧ batchProgress 1 3 = 66 ∧ batchProgress 2 3 = 100 := by
  refine ⟨?_, batchProgress_0_3, batchProgress_1_3, batchProgress_2_3⟩
  intro k file h
  unfold convert_all_images
  have hg := convert_loop_get convert files.length files 0 k file h
  rw [show 0 + k = k from by omega] at hg
  exact hg

/-- Witness for C3 on a concrete three-file batch. -/
theorem C3_witness :
    (convert_all_images ["x", "y", "z"] (fun file => Except.error "boom")).get? (2 * 1) =
      some ⟨"processing", batchProgress 1 3⟩ :=
  ((C3_progress ["x", "y", "z"] (fun file => Except.error "boom")).1 1 "y" (by decide)).1

/-- C1 refutation of the quoted error message: the single-file failure
carries the code's message "Image has transparency. Please provide a
background color.", not "image has transparency; background color
required". -/
theorem C1_counterexample :
    encodeImage [⟨0, 0, 0, 0⟩] "jpg" none false =
      .error "Image has transparency. Please provide a background color." ∧
    "Image has transparency. Please provide a background color." ≠
      "image has transparency; background color required" := by
  constructor
  · decide
  · decide

/-- C1 amended: converting an image that has at least one pixel with
alpha below 255 to JPEG with no background color supplied fails in
single-file mode with the missing-background error (message "Image has
transparency. Please provide a background color.") and succeeds in
batch mode by compositing every pixel over opaque white
`[255, 255, 255]`. -/
theorem C1_transparency_modes (dyn_img : List Rgba)
    (h : ∃ p ∈ dyn_img, p.a < 255) :
    (encodeImage dyn_img "jpg" none false =
        .error "Image has transparency. Please provide a background color." ∧
      encodeImage dyn_img "jpeg" none false =
        .error "Image has transparency. Please provide a background color.") ∧
    (encodeImage dyn_img "jpg" none true =
        .ok ("jpg", .jpeg (dyn_img.map (compositePix whiteBg))) ∧
      encodeImage dyn_img "jpeg" none true =
        .ok ("jpg", .jpeg (dyn_img.map (compositePix whiteBg)))) := by
  have hany : dyn_img.any (fun p => p.a < 255) = true := by
    rw [List.any_eq_true]
    obtain ⟨p, hp, ha⟩ := h
    exact ⟨p, hp, by simpa using ha⟩
  constructor
  · constructor
    · unfold encodeImage
      rw [if_pos (Or.inl rfl), hany]
      simp
    · unfold encodeImage
      rw [if_pos (Or.inr rfl), hany]
      simp
  · constructor
    · unfold encodeImage
      rw [if_pos (Or.inl rfl), hany]
      simp
    · unfold encodeImage
      rw [if_pos (Or.inr rfl), hany]
      simp

/-- Witness for C1 on a one-pixel fully transparent buffer: single
mode fails, batch mode composites to white. -/
theorem C1_witness :
    encodeImage [⟨10, 20, 30, 0⟩] "jpg" none false =
      .error "Image has transparency. Please provide a background color." ∧
    encodeImage [⟨10, 20, 30, 0⟩] "jpg" none true =
      .ok ("jpg", .jpeg [⟨255, 255, 255⟩]) := by
  have h := C1_transparency_modes [⟨10, 20, 30, 0⟩]
    ⟨⟨10, 20, 30, 0⟩, by decide, by decide⟩
  refine ⟨h.1.1, ?_⟩
  rw [h.2.1]
  have e1 := compCh_zero 255 10 (by norm_num)
  have e2 := compCh_zero 255 20 (by norm_num)
  have e3 := compCh_zero 255 30 (by norm_num)
  simp [compositePix, whiteBg, e1, e2, e3]

/-- When `process_and_save_image` fails, its filesystem trace is
empty: `create_dir_all` and the file write come only after the encode
match produced data. -/
theorem process_error_no_ops (dyn_img : List Rgba) (filename format : String)
    (rgb_color : Option Rgb) (output_dir : List String) (is_batch : Bool) (e : String)
    (h : (process_and_save_image dyn_img filename format rgb_color output_dir
      is_batch).1 = .error e) :
    (process_and_save_image dyn_img filename format rgb_color output_dir is_batch).2 =
      [] := by
  cases henc : encodeImage dyn_img format rgb_color is_batch with
  | error e2 =>
    unfold process_and_save_image
    rw [henc]
  | ok pr =>
    obtain ⟨ext, data⟩ := pr
    unfold process_and_save_image at h
    rw [henc] at h
    simp at h

/-- C9: whenever a conversion request fails (or panics) before an
encode completes -- invalid background color, decode failure, missing
background in single-file mode, unsupported target format -- the
recorded filesystem trace is empty: no output directory is created and
no file is written, in either entry point. -/
theorem C9_no_fs_on_failure :
    (∀ decoded filename format bg_color desktop_dir,
      (∀ p, (convert_image decoded filename format bg_color desktop_dir).1 ≠ .ok p) →
      (convert_image decoded filename format bg_color desktop_dir).2 = []) ∧
    (∀ file_path decoded format bg_color,
      (∀ p, (convert_image_from_path file_path decoded format bg_color).1 ≠ .ok p) →
      (convert_image_from_path file_path decoded format bg_color).2 = []) := by
  constructor
  · intro decoded filename format bg_color desktop_dir hfail
    unfold convert_image at hfail ⊢
    cases hbg : parseBg bg_color with
    | panic => rfl
    | err e => rfl
    | ok rgb =>
      rw [hbg] at hfail
      cases decoded with
      | error e => rfl
      | ok dyn_img =>
        cases desktop_dir with
        | none => rfl
        | some desktop =>
          rcases hp : process_and_save_image dyn_img filename format rgb
            (desktop ++ ["ImageConverter"]) false with ⟨res, ops⟩
          cases res with
          | ok p =>
            have hf := hfail p
            simp only [hp] at hf
            exact absurd rfl hf
          | error e =>
            have h2 := process_error_no_ops dyn_img filename format rgb
              (desktop ++ ["ImageConverter"]) false e (by rw [hp])
            rw [hp] at h2
            simp only [hp]
            exact h2
  · intro file_path decoded format bg_color hfail
    unfold convert_image_from_path at hfail ⊢
    cases hbg : parseBg bg_color with
    | panic => rfl
    | err e => rfl
    | ok rgb =>
      rw [hbg] at hfail
      cases hlast : file_path.getLast? with
      | none => simp
      | some filename =>
        cases decoded with
        | error e => simp
        | ok dyn_img =>
          cases hsrc : file_path.dropLast.getLast? with
          | none => simp [hsrc]
          | some source_folder_name =>
            rcases hp : process_and_save_image dyn_img filename format rgb
              (file_path.dropLast ++ [source_folder_name ++ "_converted"]) true
              with ⟨res, ops⟩
            cases res with
            | ok p =>
              have hf := hfail p
              simp only [hlast, hsrc, hp] at hf
              exact absurd rfl hf
            | error e =>
              have h2 := process_error_no_ops dyn_img filename format rgb
                (file_path.dropLast ++ [source_folder_name ++ "_converted"]) true e
                (by rw [hp])
              rw [hp] at h2
              simp only [hlast, hsrc, hp]
              exact h2

/-- Taking while a predicate holds stops exactly at the first failing
element. -/
theorem takeWhile_append_cons {α : Type} (p : α → Bool) (l : List α) (a : α) (t : List α)
    (hl : ∀ x ∈ l, p x = true) (ha : p a = false) :
    (l ++ a :: t).takeWhile p = l := by
  induction l with
  | nil => simp [List.takeWhile_cons, ha]
  | cons x xs ih =>
    have hx := hl x (by simp)
    simp only [List.cons_append, List.takeWhile_cons, hx, if_true]
    rw [ih (fun y hy => hl y (by simp [hy]))]

/-- The stem is everything before the first dot of the file name. -/
theorem stem_before_first_dot (pre post : List Char) (h : ∀ c ∈ pre, c ≠ '.') :
    stem (String.mk (pre ++ '.' :: post)) = String.mk pre := by
  unfold stem
  rw [show (String.mk (pre ++ '.' :: post)).toList = pre ++ '.' :: post from rfl]
  rw [takeWhile_append_cons _ pre '.' post
    (fun x hx => by simp [h x hx]) (by simp)]

/-- C5 refutation of the batch path: converting `a/b/photo.jpg` in
batch mode writes into `a/b/b_converted`, a subdirectory of the source
directory, not into the sibling directory `a/b_converted` the claim
names. -/
theorem C5_counterexample :
    (convert_image_from_path ["a", "b", "photo.jpg"] (.ok []) "png" none).1 =
      .ok ["a", "b", "b_converted", "photo.png"] ∧
    ["a", "b", "b_converted", "photo.png"] ≠ ["a", "b_converted", "photo.png"] := by
  constructor
  · decide
  · decide

/-- C5 amended: on success, single-file mode writes to
`<desktop>/ImageConverter/<stem>_converted.<ext>` and batch mode on
`<parent>/<dir>/<file>` writes to
`<parent>/<dir>/<dir>_converted/<stem>.<ext>` -- the `_converted`
folder is created inside the source directory and carries the source
directory's name -- where the stem is everything before the first `.`
of the original file name. -/
theorem C5_output_paths :
    (∀ (decoded_img : List Rgba) (filename format : String)
       (bg_color : Option (List Char)) (rgb : Option Rgb) (desktop : List String)
       (ext : String) (data : Encoded),
      parseBg bg_color = .ok rgb →
      encodeImage decoded_img format rgb false = .ok (ext, data) →
      convert_image (.ok decoded_img) filename format bg_color (some desktop) =
        (.ok (desktop ++ ["ImageConverter", stem filename ++ "_converted." ++ ext]),
         [.createDirAll (desktop ++ ["ImageConverter"]),
          .writeFile (desktop ++ ["ImageConverter",
            stem filename ++ "_converted." ++ ext]) data])) ∧
    (∀ (parent : List String) (dirname filename : String) (decoded_img : List Rgba)
       (format : String) (bg_color : Option (List Char)) (rgb : Option Rgb)
       (ext : String) (data : Encoded),
      parseBg bg_color = .ok rgb →
      encodeImage decoded_img format rgb true = .ok (ext, data) →
      convert_image_from_path (parent ++ [dirname, filename]) (.ok decoded_img) format
          bg_color =
        (.ok (parent ++ [dirname, dirname ++ "_converted", stem filename ++ "." ++ ext]),
         [.createDirAll (parent ++ [dirname, dirname ++ "_converted"]),
          .writeFile (parent ++ [dirname, dirname ++ "_converted",
            stem filename ++ "." ++ ext]) data])) ∧
    (∀ pre post : List Char, (∀ c ∈ pre, c ≠ '.') →
      stem (String.mk (pre ++ '.' :: post)) = String.mk pre) := by
  refine ⟨?_, ?_, stem_before_first_dot⟩
  · intro decoded_img filename format bg_color rgb desktop ext data hbg henc
    unfold convert_image process_and_save_image
    rw [hbg]
    simp [henc, List.append_assoc]
  · intro parent dirname filename decoded_img format bg_color rgb ext data hbg henc
    have hsplit : parent ++ [dirname, filename] = (parent ++ [dirname]) ++ [filename] := by
      simp
    have hl : (parent ++ [dirname, filename]).getLast? = some filename := by
      rw [hsplit]
      exact List.getLast?_concat _
    have hd : (parent ++ [dirname, filename]).dropLast = parent ++ [dirname] := by
      rw [hsplit]
      exact List.dropLast_concat
    have hl2 : (parent ++ [dirname]).getLast? = some dirname := List.getLast?_concat _
    unfold convert_image_from_path process_and_save_image
    rw [hbg]
    simp [hl, hd, hl2, henc, List.append_assoc]

/-- Witness for C5 on `photo.jpg` converted to PNG in both modes. -/
theorem C5_witness :
    convert_image (.ok []) "photo.jpg" "png" none (some ["home", "Desktop"]) =
      (.ok ["home", "Desktop", "ImageConverter", "photo_converted.png"],
       [.createDirAll ["home", "Desktop", "ImageConverter"],
        .writeFile ["home", "Desktop", "ImageConverter", "photo_converted.png"]
          (.png [])]) := by
  have h := C5_output_paths.1 [] "photo.jpg" "png" none none ["home", "Desktop"]
    "png" (.png []) (by decide) (by decide)
  rw [h]
  decide

/-- C7 refutation of the half-alpha tolerance: compositing the channel
value 0 with alpha 128 over background 255 yields 126, which is 1.5
away from the midpoint 127.5 -- outside the claimed tolerance of 1. -/
theorem C7_counterexample :
    compCh 128 255 0 = 126 ∧ ¬(|2 * ((126 : ℕ) : ℤ) - (255 + 0)| ≤ 2) := by
  constructor
  · exact compCh_128_255_0
  · decide

/-- C7 amended: per channel, the blend is the `f32` evaluation of
`(1 - alpha/255) * bg + (alpha/255) * src` truncated toward zero;
alpha 0 reproduces the background channel exactly (so a fully
transparent pixel over white yields white), alpha 255 reproduces the
source channel exactly, and alpha 128 stays within 1.5 of the linear
midpoint of background and source. -/
theorem C7_blend (bg src : ℕ) (hbg : bg ≤ 255) (hsrc : src ≤ 255) :
    compCh 0 bg src = bg ∧ compCh 255 bg src = src ∧
    (∀ r g b : ℕ, compositePix whiteBg ⟨r, g, b, 0⟩ = whiteBg) ∧
    |2 * (compCh 128 bg src : ℤ) - ((bg : ℤ) + (src : ℤ))| ≤ 3 := by
  refine ⟨compCh_zero bg src hbg, compCh_full bg src hsrc, ?_,
    compCh_mid bg src hbg hsrc⟩
  intro r g b
  unfold compositePix whiteBg
  rw [compCh_zero 255 r (by norm_num), compCh_zero 255 g (by norm_num),
    compCh_zero 255 b (by norm_num)]

/-- Witness for C7 at background 200, source 10. -/
theorem C7_witness :
    compCh 0 200 10 = 200 ∧ compCh 255 200 10 = 10 ∧
    |2 * (compCh 128 200 10 : ℤ) - ((200 : ℕ) + ((10 : ℕ) : ℤ))| ≤ 3 := by
  have h := C7_blend 200 10 (by norm_num) (by norm_num)
  exact ⟨h.1, h.2.1, by exact_mod_cast h.2.2.2⟩

/-- A character that parses as a hex digit is ASCII. -/
theorem hexDigit_toNat_lt (c : Char) (v : ℕ) (h : hexDigit? c = some v) :
    c.toNat < 128 := by
  unfold hexDigit? at h
  split at h
  · rename_i hc
    omega
  · split at h
    · rename_i hc
      omega
    · split at h
      · rename_i hc
        omega
      · exact Option.noConfusion h

/-- A hex digit is none of the special characters of the parser. -/
theorem hexDigit_ne (c : Char) (v : ℕ) (h : hexDigit? c = some v) :
    c ≠ '#' ∧ c ≠ '+' ∧ c ≠ '-' := by
  refine ⟨?_, ?_, ?_⟩ <;> intro he <;> subst he
  · rw [show hexDigit? '#' = none from by decide] at h
    exact Option.noConfusion h
  · rw [show hexDigit? '+' = none from by decide] at h
    exact Option.noConfusion h
  · rw [show hexDigit? '-' = none from by decide] at h
    exact Option.noConfusion h

theorem utf8Size_of_lt (c : Char) (h : c.toNat < 128) : utf8Size c = 1 := by
  unfold utf8Size
  rw [if_pos h]

theorem utf8Size_one (c : Char) (v : ℕ) (h : hexDigit? c = some v) : utf8Size c = 1 :=
  utf8Size_of_lt c (hexDigit_toNat_lt c v h)

/-- The three byte slices of a six-character all-ASCII string. -/
theorem slice6 (c1 c2 c3 c4 c5 c6 : Char)
    (s1 : utf8Size c1 = 1) (s2 : utf8Size c2 = 1) (s3 : utf8Size c3 = 1)
    (s4 : utf8Size c4 = 1) (s5 : utf8Size c5 = 1) (s6 : utf8Size c6 = 1) :
    sliceBytes [c1, c2, c3, c4, c5, c6] 0 2 = some [c1, c2] ∧
    sliceBytes [c1, c2, c3, c4, c5, c6] 2 4 = some [c3, c4] ∧
    sliceBytes [c1, c2, c3, c4, c5, c6] 4 6 = some [c5, c6] := by
  refine ⟨?_, ?_, ?_⟩ <;>
    simp [sliceBytes, dropBytes, takeBytes, s1, s2, s3, s4, s5, s6]

/-- Parsing a pair of hex digits yields their place value. -/
theorem fromStrRadix16_pair (c d : Char) (v w : ℕ)
    (hc : hexDigit? c = some v) (hd : hexDigit? d = some w) :
    fromStrRadix16 [c, d] = some (16 * v + w) := by
  obtain ⟨hs, hp, hm⟩ := hexDigit_ne c v hc
  have hred : fromStrRadix16 [c, d] =
      (if c = '+' then (if ([d] : List Char) = [] then none else hexDigits [d] 0)
        else if c = '-' then none else hexDigits [c, d] 0) := rfl
  rw [hred, if_neg hp, if_neg hm]
  simp [hexDigits, hc, hd]

/-- A pair whose first character is neither a digit nor a `+` fails. -/
theorem fromStrRadix16_err_left (c d : Char) (hplus : c ≠ '+')
    (h : hexDigit? c = none) : fromStrRadix16 [c, d] = none := by
  have hred : fromStrRadix16 [c, d] =
      (if c = '+' then (if ([d] : List Char) = [] then none else hexDigits [d] 0)
        else if c = '-' then none else hexDigits [c, d] 0) := rfl
  rw [hred, if_neg hplus]
  by_cases hm : c = '-'
  · rw [if_pos hm]
  · rw [if_neg hm]
    simp [hexDigits, h]

/-- A pair whose second character is not a digit fails (when the first
is not the accepted `+` sign). -/
theorem fromStrRadix16_err_right (c d : Char) (hplus : c ≠ '+')
    (h : hexDigit? d = none) : fromStrRadix16 [c, d] = none := by
  have hred : fromStrRadix16 [c, d] =
      (if c = '+' then (if ([d] : List Char) = [] then none else hexDigits [d] 0)
        else if c = '-' then none else hexDigits [c, d] 0) := rfl
  rw [hred, if_neg hplus]
  by_cases hm : c = '-'
  · rw [if_pos hm]
  · rw [if_neg hm]
    cases hc : hexDigit? c <;> simp [hexDigits, hc, h]

/-- C2 refutation of "never panics": the six-byte string `#abcde`
passes the length check, stripping the `#` leaves five bytes, and the
byte slice `[4..6]` is out of range -- the Rust code panics instead of
returning the invalid-color error. -/
theorem C2_counterexample :
    byteLen ("#abcde".toList) = 6 ∧ parse_hex_color ("#abcde".toList) = .panic := by
  constructor
  · decide
  · decide

/-- C2 amended: (1) any byte length other than 6 and 7 fails with the
length-check error; (2) six hex digits, with or without a leading `#`,
parse to exactly the RGB triple of the three byte pairs; (3) a
six-character ASCII string that does not start with `#`, has no byte
pair starting with the sign `+` accepted by `u8::from_str_radix`, and
contains a non-hex character, fails with the invalid-color error;
(4) but a 6- or 7-byte string whose leading `#`-stripped remainder is
shorter than six bytes makes the byte slices panic, e.g. `#abcde`. -/
theorem C2_hex_parse :
    (∀ s : List Char, byteLen s ≠ 6 → byteLen s ≠ 7 →
      parse_hex_color s = .err "Invalid hex color format") ∧
    (∀ c1 c2 c3 c4 c5 c6 v1 v2 v3 v4 v5 v6,
      hexDigit? c1 = some v1 → hexDigit? c2 = some v2 → hexDigit? c3 = some v3 →
      hexDigit? c4 = some v4 → hexDigit? c5 = some v5 → hexDigit? c6 = some v6 →
      parse_hex_color [c1, c2, c3, c4, c5, c6] =
        .ok (16 * v1 + v2, 16 * v3 + v4, 16 * v5 + v6) ∧
      parse_hex_color ('#' :: [c1, c2, c3, c4, c5, c6]) =
        .ok (16 * v1 + v2, 16 * v3 + v4, 16 * v5 + v6)) ∧
    (∀ c1 c2 c3 c4 c5 c6 : Char,
      c1.toNat < 128 → c2.toNat < 128 → c3.toNat < 128 → c4.toNat < 128 →
      c5.toNat < 128 → c6.toNat < 128 →
      c1 ≠ '#' → c1 ≠ '+' → c3 ≠ '+' → c5 ≠ '+' →
      (hexDigit? c1 = none ∨ hexDigit? c2 = none ∨ hexDigit? c3 = none ∨
        hexDigit? c4 = none ∨ hexDigit? c5 = none ∨ hexDigit? c6 = none) →
      parse_hex_color [c1, c2, c3, c4, c5, c6] = .err "Invalid hex color") ∧
    parse_hex_color ("#abcde".toList) = .panic := by
  refine ⟨?_, ?_, ?_, by decide⟩
  · intro s h6 h7
    unfold parse_hex_color
    rw [if_pos ⟨h6, h7⟩]
  · intro c1 c2 c3 c4 c5 c6 v1 v2 v3 v4 v5 v6 h1 h2 h3 h4 h5 h6
    have s1 := utf8Size_one c1 v1 h1
    have s2 := utf8Size_one c2 v2 h2
    have s3 := utf8Size_one c3 v3 h3
    have s4 := utf8Size_one c4 v4 h4
    have s5 := utf8Size_one c5 v5 h5
    have s6 := utf8Size_one c6 v6 h6
    have hB : byteLen [c1, c2, c3, c4, c5, c6] = 6 := by
      simp [byteLen, s1, s2, s3, s4, s5, s6]
    have hB7 : byteLen ('#' :: [c1, c2, c3, c4, c5, c6]) = 7 := by
      simp [byteLen, s1, s2, s3, s4, s5, s6,
        show utf8Size '#' = 1 from by decide]
    have hne1 := (hexDigit_ne c1 v1 h1).1
    have hdw : [c1, c2, c3, c4, c5, c6].dropWhile (fun c => c = '#') =
        [c1, c2, c3, c4, c5, c6] := by
      simp [List.dropWhile_cons, hne1]
    have hdw7 : ('#' :: [c1, c2, c3, c4, c5, c6]).dropWhile (fun c => c = '#') =
        [c1, c2, c3, c4, c5, c6] := by
      simp [List.dropWhile_cons, hne1]
    have hslices := slice6 c1 c2 c3 c4 c5 c6 s1 s2 s3 s4 s5 s6
    have hp1 := fromStrRadix16_pair c1 c2 v1 v2 h1 h2
    have hp2 := fromStrRadix16_pair c3 c4 v3 v4 h3 h4
    have hp3 := fromStrRadix16_pair c5 c6 v5 v6 h5 h6
    constructor
    · unfold parse_hex_color
      rw [if_neg (by rw [hB]; simp)]
      simp only [hdw, hslices.1, hslices.2.1, hslices.2.2, hp1, hp2, hp3]
    · unfold parse_hex_color
      rw [if_neg (by rw [hB7]; simp)]
      simp only [hdw7, hslices.1, hslices.2.1, hslices.2.2, hp1, hp2, hp3]
  · intro c1 c2 c3 c4 c5 c6 ha1 ha2 ha3 ha4 ha5 ha6 hhash hplus1 hplus3 hplus5 horr
    have s1 := utf8Size_of_lt c1 ha1
    have s2 := utf8Size_of_lt c2 ha2
    have s3 := utf8Size_of_lt c3 ha3
    have s4 := utf8Size_of_lt c4 ha4
    have s5 := utf8Size_of_lt c5 ha5
    have s6 := utf8Size_of_lt c6 ha6
    have hB : byteLen [c1, c2, c3, c4, c5, c6] = 6 := by
      simp [byteLen, s1, s2, s3, s4, s5, s6]
    have hdw : [c1, c2, c3, c4, c5, c6].dropWhile (fun c => c = '#') =
        [c1, c2, c3, c4, c5, c6] := by
      simp [List.dropWhile_cons, hhash]
    have hslices := slice6 c1 c2 c3 c4 c5 c6 s1 s2 s3 s4 s5 s6
    have hred : parse_hex_color [c1, c2, c3, c4, c5, c6] =
        (match fromStrRadix16 [c1, c2] with
          | none => .err "Invalid hex color"
          | some r =>
            match fromStrRadix16 [c3, c4] with
            | none => .err "Invalid hex color"
            | some g =>
              match fromStrRadix16 [c5, c6] with
              | none => .err "Invalid hex color"
              | some b => .ok (r, g, b)) := by
      unfold parse_hex_color
      rw [if_neg (by rw [hB]; simp)]
      simp only [hdw, hslices.1, hslices.2.1, hslices.2.2]
    rw [hred]
    cases hd1 : hexDigit? c1 with
    | none => simp [fromStrRadix16_err_left c1 c2 hplus1 hd1]
    | some v1 =>
      cases hd2 : hexDigit? c2 with
      | none => simp [fromStrRadix16_err_right c1 c2 hplus1 hd2]
      | some v2 =>
        rw [fromStrRadix16_pair c1 c2 v1 v2 hd1 hd2]
        cases hd3 : hexDigit? c3 with
        | none => simp [fromStrRadix16_err_left c3 c4 hplus3 hd3]
        | some v3 =>
          cases hd4 : hexDigit? c4 with
          | none => simp [fromStrRadix16_err_right c3 c4 hplus3 hd4]
          | some v4 =>
            rw [fromStrRadix16_pair c3 c4 v3 v4 hd3 hd4]
            cases hd5 : hexDigit? c5 with
            | none => simp [fromStrRadix16_err_left c5 c6 hplus5 hd5]
            | some v5 =>
              cases hd6 : hexDigit? c6 with
              | none => simp [fromStrRadix16_err_right c5 c6 hplus5 hd6]
              | some v6 =>
                rcases horr with h | h | h | h | h | h <;> simp_all

/-- Witness for C2 at the valid color string `2a00ff`. -/
theorem C2_witness :
    parse_hex_color ['2', 'a', '0', '0', 'f', 'f'] = .ok (42, 0, 255) := by
  have h := (C2_hex_parse.2.1 '2' 'a' '0' '0' 'f' 'f' 2 10 0 0 15 15
    (by decide) (by decide) (by decide) (by decide) (by decide) (by decide)).1
  norm_num at h
  exact h

/-- Witness for C9: a decode failure leaves the filesystem trace
empty. -/
theorem C9_witness :
    (convert_image (.error "Failed to load image: bad signature") "photo.jpg" "png"
      none (some ["home", "Desktop"])).2 = [] := by
  apply C9_no_fs_on_failure.1
  intro p h
  have he : (convert_image (.error "Failed to load image: bad signature") "photo.jpg"
      "png" none (some ["home", "Desktop"])).1 =
      .err "Failed to load image: bad signature" := by decide
  rw [he] at h
  exact PResult.noConfusion h

end ImageConverter
